import Mathlib

/-!
Shallow embedding of the core pipeline of `rss_reader.py` (Karpathy RSS digest).

Conventions of the embedding:
* Instants of time are integers (seconds on the UTC time line).  The source
  compares `isoformat()` strings of timezone-aware UTC datetimes; for
  well-formed records this string order agrees with the instant order, so the
  dedup store compares integers here.  `datetime.min` of the source's datetime
  domain is the constant `DATETIME_MIN_TS` (the epoch-second value of
  0001-01-01T00:00:00+00:00); every representable datetime is `≥` it.
* The external MD5 digest (`hashlib.md5(...).hexdigest()`) is an opaque
  collaborator; it enters the embedding as an explicit function argument
  `md5hex : String → String`, exactly as the source uses it: applied to the
  article's link.
* Python dicts are association lists; assignment `d[k] = v` is `dbInsert`
  (overwrite the existing key, else append).
* Fallible external calls (HTTP, LLM) enter as `Option`-valued arguments: the
  outcome the collaborator produced for a given input, `none` denoting a
  raised exception.
-/

set_option maxRecDepth 8000

namespace RssReader

/-- Epoch-second value of 0001-01-01T00:00:00 UTC, the least representable
datetime of the source language's datetime domain. -/
def DATETIME_MIN_TS : Int := -62135596800

/-- `MAX_ARTICLES_NO_DATE` constant of the source (line 52). -/
def MAX_ARTICLES_NO_DATE : Nat := 3

/-- `LLM_BATCH_SIZE` constant of the source (line 54). -/
def LLM_BATCH_SIZE : Nat := 5

/-- The `Article` dataclass of the source (lines 83-97), with the same field
names and the same defaults.  `published` is an optional instant. -/
structure Article where
  title : String
  link : String
  source : String
  published : Option Int := none
  summary : String := ""
  author : String := ""
  tags : List String := []
  full_content : String := ""
  ai_title : String := ""
  ai_summary : String := ""
  ai_detail : String := ""
  category : String := ""
  is_relevant : Bool := true
deriving DecidableEq, Repr

/-- One value of the persisted dedup mapping: the dict
`{"title": ..., "link": ..., "sent_at": ...}` written by `mark_as_sent`
(lines 125-131), with the ISO timestamp string modelled as an instant. -/
structure SentRecord where
  title : String
  link : String
  sent_at : Int
deriving DecidableEq, Repr

/-- The persisted dedup mapping (a JSON object = Python dict), as an
association list from identity hash to record. -/
abbrev SentDB := List (String × SentRecord)

/-- `_article_id` (lines 101-102): the MD5 hex digest of the article's link. -/
def _article_id (md5hex : String → String) (a : Article) : String :=
  md5hex a.link

/-- Thirty days in seconds: the prune window `timedelta(days=30)` of
`load_sent_db` (line 109). -/
def PRUNE_WINDOW : Int := 30 * 86400

/-- `load_sent_db` (lines 105-113), given the deserialized content of the
store file: keeps exactly the records whose `sent_at` is strictly greater
than `now - 30 days` (the source compares ISO strings with `>`, which for
well-formed UTC timestamps is the strict instant order). -/
def load_sent_db (data : SentDB) (now : Int) : SentDB :=
  let cutoff := now - PRUNE_WINDOW
  data.filter (fun kv => decide (cutoff < kv.2.sent_at))

/-- `filter_new_articles` (lines 121-122): keep the articles whose identity
hash is not a key of the dedup mapping. -/
def filter_new_articles (md5hex : String → String)
    (articles : List Article) (sent_db : SentDB) : List Article :=
  articles.filter (fun a => !(sent_db.any (fun kv => kv.1 == _article_id md5hex a)))

/-- Python dict assignment `d[k] = v` on the association-list model:
overwrite the record at an existing key, otherwise append the new binding. -/
def dbInsert (db : SentDB) (k : String) (v : SentRecord) : SentDB :=
  if db.any (fun kv => kv.1 == k) then
    db.map (fun kv => if kv.1 == k then (k, v) else kv)
  else db ++ [(k, v)]

/-- `mark_as_sent` (lines 125-131): insert/overwrite one record per article,
all carrying the current instant `now`. -/
def mark_as_sent (md5hex : String → String) (now : Int)
    (articles : List Article) (sent_db : SentDB) : SentDB :=
  articles.foldl (fun db a => dbInsert db (_article_id md5hex a) ⟨a.title, a.link, now⟩) sent_db

/-- The key set of a dedup mapping. -/
def dbKeys (db : SentDB) : List String := db.map Prod.fst

/-- A record sent exactly thirty days before the load-time instant
`PRUNE_WINDOW` (so `sent_at` sits exactly on the cutoff). -/
def boundaryRecord : SentRecord := ⟨"t", "l", 0⟩

/-- C1 counterexample: a record whose `sent_at` is exactly at the 30-day
boundary (not older than 30 days before the reference instant) is removed by
`load_sent_db`, contradicting the claim that the boundary record is kept. -/
theorem load_sent_db_boundary_dropped :
    ¬ boundaryRecord.sent_at < PRUNE_WINDOW - PRUNE_WINDOW ∧
    load_sent_db [("k", boundaryRecord)] PRUNE_WINDOW = [] := by
  constructor
  · decide
  · rfl

/-- C1 (amended): `load_sent_db` returns exactly the records whose `sent_at`
is strictly greater than the cutoff `now − 30 days`; a record exactly at the
boundary is dropped (strict inequality on the keep side). -/
theorem load_sent_db_prunes_strictly (data : SentDB) (now : Int)
    (kv : String × SentRecord) :
    kv ∈ load_sent_db data now ↔ kv ∈ data ∧ now - PRUNE_WINDOW < kv.2.sent_at := by
  simp [load_sent_db, List.mem_filter]

/-- C8: `filter_new_articles` returns a subsequence of its input (hence
preserves input order), its members are exactly the input articles whose
identity hash is absent from the mapping's keys, and the operation is
idempotent. -/
theorem filter_new_articles_spec (md5hex : String → String)
    (articles : List Article) (sent_db : SentDB) :
    (filter_new_articles md5hex articles sent_db).Sublist articles ∧
    (∀ a, a ∈ filter_new_articles md5hex articles sent_db ↔
        a ∈ articles ∧ _article_id md5hex a ∉ dbKeys sent_db) ∧
    filter_new_articles md5hex (filter_new_articles md5hex articles sent_db) sent_db
      = filter_new_articles md5hex articles sent_db := by
  refine ⟨List.filter_sublist _, fun a => ?_, ?_⟩
  · simp [filter_new_articles, List.mem_filter, dbKeys, List.any_eq_true]
    intro _
    constructor
    · intro h x hx
      exact h _ _ hx rfl
    · intro h s b hsb heq
      exact h b (heq ▸ hsb)
  · apply List.filter_eq_self.mpr
    intro a ha
    exact (List.mem_filter.mp ha).2

/-- One parsed feed entry as the date-filtering loop of `fetch_feed`
(lines 188-200) sees it: `date` is the value of `parse_date(entry)` — the
instant resolved through the ordered fallback over the feed's date fields,
`none` when no field yields a date.  `title` stands for the entry payload. -/
structure Entry where
  title : String
  date : Option Int
deriving DecidableEq, Repr

/-- The per-entry loop of `fetch_feed` (lines 189-200) with the `collected`
counter threaded explicitly: a dated entry before `since` is skipped; a
dateless entry is skipped when the feed has any dated entry, otherwise only
the first `MAX_ARTICLES_NO_DATE` dateless entries are kept. -/
def fetch_feed_go (since : Int) (has_any_date : Bool) :
    List Entry → Nat → List Entry
  | [], _ => []
  | e :: rest, collected =>
    match e.date with
    | some d =>
      if d < since then fetch_feed_go since has_any_date rest collected
      else e :: fetch_feed_go since has_any_date rest collected
    | none =>
      if has_any_date then fetch_feed_go since has_any_date rest collected
      else
        if collected + 1 > MAX_ARTICLES_NO_DATE then
          fetch_feed_go since has_any_date rest (collected + 1)
        else e :: fetch_feed_go since has_any_date rest (collected + 1)

/-- The entry selection of `fetch_feed` (lines 188-200): `has_any_date` is
computed over the whole feed first (line 188), then the loop runs with
`collected = 0`. -/
def fetch_feed_select (since : Int) (entries : List Entry) : List Entry :=
  fetch_feed_go since (entries.any (fun e => e.date.isSome)) entries 0

theorem fetch_feed_go_dated (since : Int) (entries : List Entry) (c : Nat) :
    fetch_feed_go since true entries c
      = entries.filter (fun e => match e.date with
          | some d => decide (since ≤ d)
          | none => false) := by
  induction entries generalizing c with
  | nil => rfl
  | cons e rest ih =>
    cases hd : e.date with
    | some d =>
      by_cases hlt : d < since
      · simp [fetch_feed_go, hd, hlt, List.filter_cons, Int.not_le.mpr hlt, ih]
      · simp [fetch_feed_go, hd, hlt, List.filter_cons, Int.not_lt.mp hlt, ih]
    | none => simp [fetch_feed_go, hd, List.filter_cons, ih]

theorem fetch_feed_go_dateless (since : Int) (entries : List Entry) :
    ∀ c : Nat, (∀ e ∈ entries, e.date = none) →
      fetch_feed_go since false entries c
        = entries.take (MAX_ARTICLES_NO_DATE - c) := by
  induction entries with
  | nil => intro c _; simp [fetch_feed_go]
  | cons e rest ih =>
    intro c h
    have hd : e.date = none := h e (by simp)
    have hr : ∀ x ∈ rest, x.date = none := fun x hx => h x (by simp [hx])
    have hmax : MAX_ARTICLES_NO_DATE = 3 := rfl
    by_cases hc : c + 1 > MAX_ARTICLES_NO_DATE
    · have h3 : MAX_ARTICLES_NO_DATE - c = 0 := by omega
      have h4 : MAX_ARTICLES_NO_DATE - (c + 1) = 0 := by omega
      simp [fetch_feed_go, hd, hc, ih _ hr, h3, h4]
    · have h3 : MAX_ARTICLES_NO_DATE - c = (MAX_ARTICLES_NO_DATE - (c + 1)) + 1 := by
        omega
      simp [fetch_feed_go, hd, hc, ih _ hr, h3]

/-- A ten-entry feed in which no entry has a resolvable date. -/
def tenDatelessEntries : List Entry :=
  (List.range 10).map (fun i => ⟨toString i, none⟩)

/-- A feed with both dated and dateless entries. -/
def someDatedEntries : List Entry := [⟨"a", some 5⟩, ⟨"b", none⟩, ⟨"c", some 1⟩]

/-- C3: when at least one entry of the feed has a resolvable date, the kept
entries are exactly the dated ones with date `≥ since` (dateless entries are
dropped, strictly-earlier dates excluded); when no entry has a resolvable
date, exactly the first `MAX_ARTICLES_NO_DATE` (= 3) entries are kept in
document order — in particular a 10-entry feed with zero resolvable dates
yields exactly 3 entries. -/
theorem fetch_feed_date_policy (since : Int) (entries : List Entry) :
    (entries.any (fun e => e.date.isSome) = true →
      fetch_feed_select since entries
        = entries.filter (fun e => match e.date with
            | some d => decide (since ≤ d)
            | none => false)) ∧
    ((∀ e ∈ entries, e.date = none) →
      fetch_feed_select since entries = entries.take MAX_ARTICLES_NO_DATE) ∧
    fetch_feed_select 0 tenDatelessEntries = tenDatelessEntries.take 3 ∧
    (fetch_feed_select 0 tenDatelessEntries).length = 3 := by
  refine ⟨?_, ?_, by decide, by decide⟩
  · intro h
    unfold fetch_feed_select
    rw [h]
    exact fetch_feed_go_dated since entries 0
  · intro h
    have hany : entries.any (fun e => e.date.isSome) = false := by
      simp only [List.any_eq_false]
      intro e he
      simp [h e he]
    unfold fetch_feed_select
    rw [hany]
    simpa using fetch_feed_go_dateless since entries 0 h

/-- C3 witness: the date-policy theorem applied at concrete feeds, with each
hypothesis discharged by evaluation. -/
theorem fetch_feed_date_policy_witness :
    fetch_feed_select 3 someDatedEntries
      = someDatedEntries.filter (fun e => match e.date with
          | some d => decide ((3 : Int) ≤ d)
          | none => false) ∧
    fetch_feed_select 7 tenDatelessEntries = tenDatelessEntries.take 3 :=
  ⟨(fetch_feed_date_policy 3 someDatedEntries).1 (by decide),
   (fetch_feed_date_policy 7 tenDatelessEntries).2.1 (by decide)⟩

/-- Sort key of the aggregate sort of `fetch_all_feeds` (lines 242-245): the
publish instant, a missing timestamp replaced by `datetime.min` (this is
`a.published or datetime.min.replace(tzinfo=timezone.utc)`). -/
def aggregate_key (a : Article) : Int := a.published.getD DATETIME_MIN_TS

/-- The descending order realized by `list.sort(key=..., reverse=True)`. -/
def aggregate_rel (x y : Article) : Prop := aggregate_key y ≤ aggregate_key x

instance : DecidableRel aggregate_rel := fun x y =>
  Int.decLe (aggregate_key y) (aggregate_key x)

instance : IsTotal Article aggregate_rel :=
  ⟨fun x y => Int.le_total (aggregate_key y) (aggregate_key x)⟩

instance : IsTrans Article aggregate_rel :=
  ⟨fun _ _ _ h1 h2 => le_trans h2 h1⟩

/-- The aggregation of `fetch_all_feeds` (lines 239-247): concatenate every
source's article list, then stable-sort descending by `aggregate_key`
(`list.sort` is a stable sort; a stable sort's output is uniquely determined
by the comparison, and insertion sort realizes it). -/
def fetch_all_feeds_aggregate (results : List (List Article)) : List Article :=
  List.insertionSort aggregate_rel results.flatten

def articleJan03 : Article :=
  { title := "jan03", link := "l3", source := "s", published := some 1704240000 }

def articleNoDate : Article :=
  { title := "nodate", link := "ln", source := "s" }

def articleJan05 : Article :=
  { title := "jan05", link := "l5", source := "s", published := some 1704412800 }

/-- C4: the aggregate is a permutation of the concatenation of all sources'
items, sorted descending by publish instant with a missing instant treated as
the minimum datetime value; on items dated [2024-01-03, missing, 2024-01-05]
the output order is [2024-01-05, 2024-01-03, missing]. -/
theorem fetch_all_feeds_aggregate_sorted (results : List (List Article)) :
    (fetch_all_feeds_aggregate results).Perm results.flatten ∧
    (fetch_all_feeds_aggregate results).Pairwise
      (fun x y => aggregate_key y ≤ aggregate_key x) ∧
    fetch_all_feeds_aggregate [[articleJan03, articleNoDate, articleJan05]]
      = [articleJan05, articleJan03, articleNoDate] := by
  refine ⟨List.perm_insertionSort aggregate_rel results.flatten, ?_, by decide⟩
  exact List.sorted_insertionSort aggregate_rel results.flatten

/-- `fetch_page_content` (lines 272-281), given the outcome of the page get
plus `extract_text_from_html`: `none` models any raised fetch/parse error
(swallowed at debug level), `some text` the extracted page text.  The text is
returned only when longer than 200 characters, else the empty string. -/
def fetch_page_content (extracted : Option String) : String :=
  match extracted with
  | none => ""
  | some text => if 200 < text.length then text else ""

/-- The per-article body of `enrich_articles_with_full_content`
(lines 287-291): overwrite `full_content` only when `fetch_page_content`
returned non-empty text. -/
def enrich_article (extracted : Option String) (a : Article) : Article :=
  let content := fetch_page_content extracted
  if content ≠ "" then { a with full_content := content } else a

/-- `enrich_articles_with_full_content` (lines 284-298): every article is
rewritten from its own page-fetch outcome, independently of the others. -/
def enrich_articles_with_full_content (fetchOf : Article → Option String)
    (articles : List Article) : List Article :=
  articles.map (fun a => enrich_article (fetchOf a) a)

/-- C5: extracted text of length > 200 always replaces `full_content`;
extracted text of length ≤ 200 never does; a fetch/parse error leaves the
article unchanged. -/
theorem enrich_acceptance (a : Article) :
    (∀ text : String, 200 < text.length →
        enrich_article (some text) a = { a with full_content := text }) ∧
    (∀ text : String, text.length ≤ 200 → enrich_article (some text) a = a) ∧
    enrich_article none a = a := by
  refine ⟨fun text h => ?_, fun text h => ?_, by simp [enrich_article, fetch_page_content]⟩
  · have hne : text ≠ "" := by
      intro he
      subst he
      simp at h
    simp [enrich_article, fetch_page_content, h, hne]
  · simp [enrich_article, fetch_page_content, Nat.not_lt.mpr h]

/-- A 201-character extracted text. -/
def longText : String := (List.replicate 201 'x').asString

def baseArticle : Article :=
  { title := "t", link := "l", source := "s", full_content := "feed" }

/-- C5 witness: the acceptance rule evaluated at a 201-character text, a
short text, and an error outcome. -/
theorem enrich_acceptance_witness :
    enrich_article (some longText) baseArticle
      = { baseArticle with full_content := longText } ∧
    enrich_article (some "short") baseArticle = baseArticle ∧
    enrich_article none baseArticle = baseArticle :=
  ⟨(enrich_acceptance baseArticle).1 longText (by decide),
   (enrich_acceptance baseArticle).2.1 "short" (by decide),
   (enrich_acceptance baseArticle).2.2⟩

/-- The fields of the JSON object extracted from the collaborator's reply in
`summarize_with_llm` (lines 344-347); each field may be absent, matching the
`data.get(...)` accesses with their defaults. -/
structure LLMData where
  category : Option String := none
  is_relevant : Option Bool := none
  title : Option String := none
  summary : Option String := none
deriving DecidableEq, Repr

/-- One per-article outcome of the classifier call inside
`summarize_with_llm` (lines 332-360): `none` — the call (or the JSON decode)
raised, handled by the `except` branch; `some none` — the reply carried no
JSON object (the regex search found nothing); `some (some d)` — a decoded
JSON object `d`. -/
abbrev ClassifierOutcome := Option (Option LLMData)

/-- One element of the result list built by `summarize_with_llm`. -/
structure SumResult where
  title : String
  summary : String
  category : String
  is_relevant : Bool
deriving DecidableEq, Repr

/-- The per-article body of `summarize_with_llm` (lines 325-360).  `call`
yields the collaborator's outcome for the article; the literal "其他" is the
source's irrelevant bucket ("other"). -/
def summarize_one (call : Article → ClassifierOutcome) (article : Article) :
    SumResult :=
  let content := if article.full_content ≠ "" then article.full_content else article.summary
  if content = "" then ⟨article.title, "", "其他", false⟩
  else
    match call article with
    | none => ⟨article.title, article.summary, "其他", false⟩
    | some none => ⟨article.title, "", "其他", false⟩
    | some (some data) =>
      let is_relevant0 := data.is_relevant.getD true
      let category := data.category.getD "其他"
      let is_relevant := if category = "其他" then false else is_relevant0
      ⟨if is_relevant then data.title.getD article.title else article.title,
       if is_relevant then data.summary.getD "" else "",
       category, is_relevant⟩

/-- `summarize_with_llm` (lines 323-361): one classifier call per article of
the batch, in order; each article contributes exactly one result. -/
def summarize_with_llm (call : Article → ClassifierOutcome)
    (articles : List Article) : List SumResult :=
  articles.map (summarize_one call)

/-- The batch split `articles[i : i + LLM_BATCH_SIZE]` of
`ai_summarize_articles` (lines 397-398), with the stepping of the `range`
loop paid for by a fuel argument (one slice consumes at least one element,
so `l.length` steps suffice). -/
def toBatchesFuel : Nat → List Article → List (List Article)
  | _, [] => []
  | 0, _ :: _ => []
  | fuel + 1, l => l.take LLM_BATCH_SIZE :: toBatchesFuel fuel (l.drop LLM_BATCH_SIZE)

def toBatches (l : List Article) : List (List Article) :=
  toBatchesFuel l.length l

theorem toBatchesFuel_flatten :
    ∀ (fuel : Nat) (l : List Article), l.length ≤ fuel →
      (toBatchesFuel fuel l).flatten = l := by
  intro fuel
  induction fuel with
  | zero =>
    intro l h
    have : l = [] := List.length_eq_zero.mp (Nat.le_zero.mp h)
    subst this
    rfl
  | succ fuel ih =>
    intro l h
    cases l with
    | nil => rfl
    | cons a rest =>
      have h5 : LLM_BATCH_SIZE = 5 := rfl
      have hlen : (List.drop LLM_BATCH_SIZE (a :: rest)).length ≤ fuel := by
        simp only [List.length_drop, List.length_cons]
        simp only [List.length_cons] at h
        omega
      simp only [toBatchesFuel, List.flatten_cons, ih _ hlen, List.take_append_drop]

theorem toBatches_flatten (l : List Article) : (toBatches l).flatten = l :=
  toBatchesFuel_flatten l.length l (Nat.le_refl _)

theorem batched_summaries (call : Article → ClassifierOutcome)
    (articles : List Article) :
    ((toBatches articles).map (summarize_with_llm call)).flatten
      = articles.map (summarize_one call) := by
  have h : ((toBatches articles).map (summarize_with_llm call)).flatten
      = ((toBatches articles).flatten).map (summarize_one call) := by
    rw [List.map_flatten]
    rfl
  rw [h, toBatches_flatten]

/-- The write-back of one result into its article (lines 403-408). -/
def apply_result (a : Article) (r : SumResult) : Article :=
  { a with ai_title := r.title, ai_summary := r.summary,
           category := r.category, is_relevant := r.is_relevant }

/-- The per-article body of `enrich_detail_with_llm` (lines 364-386): `call`
yields the long-form reply or `none` for a raised call; on a raised call or
empty content the detail falls back to the short summary. -/
def enrich_detail_one (call : Article → Option String) (a : Article) : Article :=
  let content := if a.full_content ≠ "" then a.full_content else a.summary
  if content = "" then { a with ai_detail := a.ai_summary }
  else
    match call a with
    | some detail => { a with ai_detail := detail }
    | none => { a with ai_detail := a.ai_summary }

/-- `ai_summarize_articles` (lines 389-427): split into batches of
`LLM_BATCH_SIZE`, classify each batch, write the results back one-to-one,
keep only `is_relevant` articles when `enable_filter` is set (else all), then
run the sequential detail pass over the retained list. -/
def ai_summarize_articles (call : Article → ClassifierOutcome)
    (detail_call : Article → Option String)
    (articles : List Article) (enable_filter : Bool) : List Article :=
  if articles = [] then articles
  else
    let results := ((toBatches articles).map (summarize_with_llm call)).flatten
    let annotated := List.zipWith apply_result articles results
    let relevant :=
      if enable_filter then annotated.filter (fun a => a.is_relevant) else annotated
    relevant.map (enrich_detail_one detail_call)

theorem zipWith_apply_map (call : Article → ClassifierOutcome)
    (articles : List Article) :
    List.zipWith apply_result articles
        (((toBatches articles).map (summarize_with_llm call)).flatten)
      = articles.map (fun a => apply_result a (summarize_one call a)) := by
  rw [batched_summaries]
  induction articles with
  | nil => rfl
  | cons a rest ih => simp [ih]

theorem enrich_detail_one_link (dc : Article → Option String) (a : Article) :
    (enrich_detail_one dc a).link = a.link := by
  cases hdc : dc a <;> by_cases h1 : a.full_content = "" <;>
    by_cases h2 : a.summary = "" <;> simp [enrich_detail_one, hdc, h1, h2]

theorem enrich_detail_one_is_relevant (dc : Article → Option String) (a : Article) :
    (enrich_detail_one dc a).is_relevant = a.is_relevant := by
  cases hdc : dc a <;> by_cases h1 : a.full_content = "" <;>
    by_cases h2 : a.summary = "" <;> simp [enrich_detail_one, hdc, h1, h2]

theorem enrich_detail_one_category (dc : Article → Option String) (a : Article) :
    (enrich_detail_one dc a).category = a.category := by
  cases hdc : dc a <;> by_cases h1 : a.full_content = "" <;>
    by_cases h2 : a.summary = "" <;> simp [enrich_detail_one, hdc, h1, h2]

/-- An article with a non-empty feed summary and non-empty content. -/
def cexArticle : Article :=
  { title := "t", link := "l", source := "s", summary := "feedsum",
    full_content := "body" }

/-- C2 counterexample: when the classifier call raises, the fallback result
keeps the item's feed summary (line 360 of the source), so the result's
summary is not the empty string the claim demands. -/
theorem classifier_failure_summary_not_empty :
    (summarize_one (fun _ => none) cexArticle).summary = "feedsum" ∧
    ("feedsum" : String) ≠ "" := by
  constructor
  · rfl
  · decide

/-- C2 (amended): an unparseable reply yields the default
(category "其他"/other, not relevant, original title, empty summary); a
raised classifier call yields the same default except that the summary falls
back to the item's feed summary; and each article's result depends only on
its own call outcome, so sibling items of a batch are unaffected and the
batch never fails. -/
theorem classifier_failure_defaults (call : Article → ClassifierOutcome) :
    (∀ a : Article, call a = some none →
        summarize_one call a = ⟨a.title, "", "其他", false⟩) ∧
    (∀ a : Article, call a = none →
        summarize_one call a = ⟨a.title, a.summary, "其他", false⟩) ∧
    (∀ (articles : List Article) (i : Nat),
        (summarize_with_llm call articles)[i]?
          = (articles[i]?).map (summarize_one call)) := by
  refine ⟨fun a h => ?_, fun a h => ?_, fun articles i => ?_⟩
  · by_cases h1 : a.full_content = "" <;> by_cases h2 : a.summary = "" <;>
      simp [summarize_one, h, h1, h2]
  · by_cases h1 : a.full_content = "" <;> by_cases h2 : a.summary = "" <;>
      simp [summarize_one, h, h1, h2]
  · simp [summarize_with_llm]

/-- C2 witness: the amended defaults evaluated at one article for a
no-JSON reply and for a raised call. -/
theorem classifier_failure_defaults_witness :
    summarize_one (fun _ => some none) cexArticle
      = ⟨cexArticle.title, "", "其他", false⟩ ∧
    summarize_one (fun _ => none) cexArticle
      = ⟨cexArticle.title, cexArticle.summary, "其他", false⟩ ∧
    (summarize_with_llm (fun _ => none) [cexArticle])[0]?
      = ([cexArticle][0]?).map (summarize_one (fun _ => none)) :=
  ⟨(classifier_failure_defaults (fun _ => some none)).1 cexArticle rfl,
   (classifier_failure_defaults (fun _ => none)).2.1 cexArticle rfl,
   (classifier_failure_defaults (fun _ => none)).2.2 [cexArticle] 0⟩

theorem summarize_one_other_irrelevant (call : Article → ClassifierOutcome)
    (a : Article) :
    (summarize_one call a).category = "其他" →
    (summarize_one call a).is_relevant = false := by
  rcases hc : call a with _ | op
  · by_cases h1 : a.full_content = "" <;> by_cases h2 : a.summary = "" <;>
      simp [summarize_one, hc, h1, h2]
  · rcases op with _ | d
    · by_cases h1 : a.full_content = "" <;> by_cases h2 : a.summary = "" <;>
        simp [summarize_one, hc, h1, h2]
    · by_cases h1 : a.full_content = "" <;> by_cases h2 : a.summary = "" <;>
        by_cases h3 : d.category.getD "其他" = "其他" <;>
        simp [summarize_one, hc, h1, h2, h3]

/-- C6: a classified result whose category is the irrelevant bucket "其他"
("other") has `is_relevant` forced to `false` whatever the collaborator
returned; consequently, with relevance filtering enabled, every article of
the transformer's output has `is_relevant = true` and none is in the
"其他" bucket. -/
theorem other_category_forced_irrelevant :
    (∀ (call : Article → ClassifierOutcome) (a : Article),
        (summarize_one call a).category = "其他" →
        (summarize_one call a).is_relevant = false) ∧
    (∀ (call : Article → ClassifierOutcome)
        (detail_call : Article → Option String)
        (articles : List Article) (a : Article),
        a ∈ ai_summarize_articles call detail_call articles true →
        a.is_relevant = true ∧ a.category ≠ "其他") := by
  refine ⟨summarize_one_other_irrelevant, ?_⟩
  intro call dc articles a ha
  by_cases hnil : articles = []
  · subst hnil
    simp [ai_summarize_articles] at ha
  · unfold ai_summarize_articles at ha
    rw [if_neg hnil] at ha
    simp only [zipWith_apply_map, if_true] at ha
    obtain ⟨b, hb, hba⟩ := List.mem_map.mp ha
    rw [List.mem_filter] at hb
    obtain ⟨hbmem, hbrel⟩ := hb
    obtain ⟨x, _, hbx⟩ := List.mem_map.mp hbmem
    have hrel : a.is_relevant = true := by
      rw [← hba, enrich_detail_one_is_relevant]
      exact hbrel
    refine ⟨hrel, fun hcat => ?_⟩
    have hbcat : b.category = "其他" := by
      rw [← hba, enrich_detail_one_category] at hcat
      exact hcat
    have hbcat' : (summarize_one call x).category = "其他" := by
      rw [← hbx] at hbcat
      exact hbcat
    have hbrel' : (summarize_one call x).is_relevant = false :=
      summarize_one_other_irrelevant call x hbcat'
    rw [← hbx] at hbrel
    simp [apply_result, hbrel'] at hbrel

/-- A collaborator reply putting the article in the "其他" bucket while
claiming it relevant. -/
def otherCall : Article → ClassifierOutcome := fun _ =>
  some (some { category := some "其他", is_relevant := some true,
               title := some "T", summary := some "S" })

/-- A collaborator reply classifying the article as relevant "AI". -/
def aiCall : Article → ClassifierOutcome := fun _ =>
  some (some { category := some "AI", is_relevant := some true,
               title := some "T", summary := some "S" })

/-- The article produced by one transformer pass over `baseArticle` under
`aiCall` with a failing detail call. -/
def aiOutArticle : Article :=
  { title := "t", link := "l", source := "s", full_content := "feed",
    ai_title := "T", ai_summary := "S", ai_detail := "S",
    category := "AI", is_relevant := true }

/-- C6 witness: the forcing applied to a reply that returned
`is_relevant = true` with category "其他", and the output-membership part
applied to a concrete pass. -/
theorem other_category_forced_irrelevant_witness :
    (summarize_one otherCall baseArticle).is_relevant = false ∧
    (aiOutArticle.is_relevant = true ∧ aiOutArticle.category ≠ "其他") :=
  ⟨other_category_forced_irrelevant.1 otherCall baseArticle (by decide),
   other_category_forced_irrelevant.2 aiCall (fun _ => none) [baseArticle]
     aiOutArticle (by decide)⟩

/-- C7: with `enable_filter = false` the transformer keeps every classified
item: the link sequence of the output equals that of the input, so no item —
whatever its category or relevance flag — is dropped by the relevance step. -/
theorem ai_summarize_no_filter_keeps_all (call : Article → ClassifierOutcome)
    (detail_call : Article → Option String) (articles : List Article) :
    (ai_summarize_articles call detail_call articles false).map (fun a => a.link)
      = articles.map (fun a => a.link) := by
  by_cases hnil : articles = []
  · subst hnil
    rfl
  · unfold ai_summarize_articles
    rw [if_neg hnil]
    simp only [Bool.false_eq_true, if_false, zipWith_apply_map, List.map_map]
    apply List.map_congr_left
    intro a _
    simp only [Function.comp_apply, enrich_detail_one_link]
    rfl

/-- The result of one round's `fetch_and_process` call in `run_watch`
(lines 864-873): either the produced article list or a raised error,
which the `except` branch catches. -/
inductive RoundOutcome where
  | ok (articles : List Article)
  | error (msg : String)
deriving DecidableEq, Repr

/-- Observable events of the `run_watch` loop body (lines 861-875). -/
inductive WatchEvent where
  | roundStart (round : Nat)
  | pushed (count : Nat)
  | noNew
  | roundError (msg : String)
  | sleep (minutes : Nat)
deriving DecidableEq, Repr

/-- The trace of the `while True` loop of `run_watch` (lines 860-875) over a
given sequence of round outcomes: each round logs its start, then either the
round's result or — when the round raised — the caught error, then always
the inter-round sleep; the loop itself is unbounded, and the trace over any
finite outcome prefix embeds its behaviour over those rounds. -/
def run_watch_trace (interval : Nat) : Nat → List RoundOutcome → List WatchEvent
  | _, [] => []
  | round_count, o :: rest =>
    let body := match o with
      | RoundOutcome.ok articles =>
        if articles = [] then [WatchEvent.noNew]
        else [WatchEvent.pushed articles.length]
      | RoundOutcome.error msg => [WatchEvent.roundError msg]
    (WatchEvent.roundStart (round_count + 1) :: body)
      ++ (WatchEvent.sleep interval :: run_watch_trace interval (round_count + 1) rest)

/-- Recognizer for the sleep event. -/
def isSleep : WatchEvent → Bool
  | WatchEvent.sleep _ => true
  | _ => false

/-- C9: over every sequence of round outcomes — errors included — the loop
sleeps exactly once per round and every round is started, so no single
round's failure terminates the loop; a raised round additionally leaves its
caught-error log in the trace. -/
theorem run_watch_failure_isolation (interval : Nat) (n : Nat)
    (outcomes : List RoundOutcome) :
    ((run_watch_trace interval n outcomes).countP isSleep = outcomes.length) ∧
    (∀ i : Nat, i < outcomes.length →
        WatchEvent.roundStart (n + 1 + i) ∈ run_watch_trace interval n outcomes) ∧
    (∀ (i : Nat) (msg : String), outcomes[i]? = some (RoundOutcome.error msg) →
        WatchEvent.roundError msg ∈ run_watch_trace interval n outcomes) := by
  induction outcomes generalizing n with
  | nil =>
    refine ⟨rfl, fun i hi => absurd hi (by simp), fun i msg h => by simp at h⟩
  | cons o rest ih =>
    obtain ⟨ihc, ihs, ihe⟩ := ih (n + 1)
    refine ⟨?_, ?_, ?_⟩
    · cases o with
      | ok articles =>
        by_cases h : articles = [] <;>
          simp [run_watch_trace, h, List.countP_append, List.countP_cons, isSleep, ihc]
      | error msg =>
        simp [run_watch_trace, List.countP_append, List.countP_cons, isSleep, ihc]
    · intro i hi
      cases i with
      | zero => simp [run_watch_trace]
      | succ j =>
        have hj : j < rest.length := by
          simp only [List.length_cons] at hi
          omega
        have hmem := ihs j hj
        have harith : n + 1 + (j + 1) = n + 1 + 1 + j := by omega
        rw [harith]
        simp only [run_watch_trace, List.mem_append, List.mem_cons]
        right
        right
        exact hmem
    · intro i msg h
      cases i with
      | zero =>
        simp only [List.getElem?_cons_zero, Option.some.injEq] at h
        subst h
        simp [run_watch_trace]
      | succ j =>
        simp only [List.getElem?_cons_succ] at h
        have hmem := ihe j msg h
        simp only [run_watch_trace, List.mem_append, List.mem_cons]
        right
        right
        exact hmem

/-- C9 witness: a two-round run whose first round raises still sleeps twice,
starts the second round, and logs the caught error. -/
theorem run_watch_failure_isolation_witness :
    ((run_watch_trace 30 0 [RoundOutcome.error "boom", RoundOutcome.ok []]).countP
        isSleep = 2) ∧
    WatchEvent.roundStart 2
      ∈ run_watch_trace 30 0 [RoundOutcome.error "boom", RoundOutcome.ok []] ∧
    WatchEvent.roundError "boom"
      ∈ run_watch_trace 30 0 [RoundOutcome.error "boom", RoundOutcome.ok []] :=
  ⟨(run_watch_failure_isolation 30 0 [RoundOutcome.error "boom", RoundOutcome.ok []]).1,
   (run_watch_failure_isolation 30 0
      [RoundOutcome.error "boom", RoundOutcome.ok []]).2.1 1 (by decide),
   (run_watch_failure_isolation 30 0
      [RoundOutcome.error "boom", RoundOutcome.ok []]).2.2 0 "boom" (by decide)⟩

/-- `priority.get(a.category, 3)` of `_select_top_articles` (line 438). -/
def category_priority (cat : String) : Nat :=
  if cat = "AI" then 0 else if cat = "科技" then 1 else if cat = "商业" then 2 else 3

/-- The sort order of `_select_top_articles` (lines 439-445): ascending in
the tuple (category priority, negated publish instant), a missing instant
standing in as 0 (`a.published.timestamp() if a.published else 0`). -/
def wecom_rel (x y : Article) : Prop :=
  category_priority x.category < category_priority y.category ∨
    (category_priority x.category = category_priority y.category ∧
      -(x.published.getD 0) ≤ -(y.published.getD 0))

instance : DecidableRel wecom_rel := fun x y => by
  unfold wecom_rel
  exact inferInstance

/-- `_select_top_articles` (lines 436-446): stable-sort by `wecom_rel`, keep
the first `n`. -/
def _select_top_articles (articles : List Article) (n : Nat) : List Article :=
  (List.insertionSort wecom_rel articles).take n

/-- The delivery outcome of the webhook post inside `send_to_wecom`
(lines 486-497): delivered (`errcode == 0`), rejected (non-zero errcode), or
a raised transport error — the latter two only logged. -/
inductive SendOutcome where
  | delivered
  | rejected (errcode : Int)
  | transportError
deriving DecidableEq, Repr

/-- What `send_to_wecom` logged. -/
inductive SendLog where
  | noArticles
  | sendOk
  | sendFailed
  | sendException
deriving DecidableEq, Repr

/-- `send_to_wecom` (lines 478-497): nothing is sent for an empty list;
otherwise the pushed message is built from the top-5 selection
(lines 483-484) and every delivery failure is swallowed (logged only) — the
function returns normally for every outcome.  The second component is the
article selection included in the pushed message. -/
def send_to_wecom (outcome : SendOutcome) (articles : List Article) :
    SendLog × List Article :=
  if articles = [] then (SendLog.noArticles, [])
  else
    let top := _select_top_articles articles 5
    match outcome with
    | SendOutcome.delivered => (SendLog.sendOk, top)
    | SendOutcome.rejected _ => (SendLog.sendFailed, top)
    | SendOutcome.transportError => (SendLog.sendException, top)

/-- The tail of `fetch_and_process` (lines 792-810), entered with the
transformer's final output: return early when it is empty; otherwise push to
the webhook when one is configured, then — whenever a dedup mapping was
supplied — mark every output article as sent and persist, unconditionally
and after the notification step. -/
def fetch_and_process_tail (md5hex : String → String) (now : Int)
    (webhook : Option String) (outcome : SendOutcome)
    (sent_db : Option SentDB) (articles : List Article) :
    Option (SendLog × List Article) × Option SentDB × List Article :=
  if articles = [] then (none, sent_db, [])
  else
    let sendRes := webhook.map (fun _ => send_to_wecom outcome articles)
    let db' := sent_db.map (fun db => mark_as_sent md5hex now articles db)
    (sendRes, db', articles)

theorem dbKeys_dbInsert (db : SentDB) (k : String) (v : SentRecord)
    (k' : String) (h : k' ∈ dbKeys db) : k' ∈ dbKeys (dbInsert db k v) := by
  unfold dbInsert
  split
  · obtain ⟨kv, hkv, hfst⟩ := List.mem_map.mp h
    by_cases hk : kv.1 = k
    · apply List.mem_map.mpr
      refine ⟨(k, v), List.mem_map.mpr ⟨kv, hkv, by simp [hk]⟩, ?_⟩
      simp [← hfst, hk]
    · apply List.mem_map.mpr
      refine ⟨kv, List.mem_map.mpr ⟨kv, hkv, by simp [hk]⟩, hfst⟩
  · unfold dbKeys at h ⊢
    simp only [List.map_append, List.mem_append]
    left
    exact h

theorem dbKeys_dbInsert_self (db : SentDB) (k : String) (v : SentRecord) :
    k ∈ dbKeys (dbInsert db k v) := by
  unfold dbInsert
  split
  · rename_i hany
    obtain ⟨kv, hkv, hk⟩ := List.any_eq_true.mp hany
    apply List.mem_map.mpr
    refine ⟨(k, v), List.mem_map.mpr ⟨kv, hkv, by simp [eq_of_beq hk]⟩, rfl⟩
  · unfold dbKeys
    simp

theorem mark_as_sent_keeps_keys (md5hex : String → String) (now : Int)
    (articles : List Article) :
    ∀ (db : SentDB) (k : String), k ∈ dbKeys db →
      k ∈ dbKeys (mark_as_sent md5hex now articles db) := by
  induction articles with
  | nil => intro db k h; exact h
  | cons a rest ih =>
    intro db k h
    exact ih _ k (dbKeys_dbInsert db (_article_id md5hex a) ⟨a.title, a.link, now⟩ k h)

theorem mark_as_sent_marks_all (md5hex : String → String) (now : Int)
    (articles : List Article) :
    ∀ (db : SentDB) (a : Article), a ∈ articles →
      _article_id md5hex a ∈ dbKeys (mark_as_sent md5hex now articles db) := by
  induction articles with
  | nil => intro db a h; simp at h
  | cons b rest ih =>
    intro db a h
    rcases List.mem_cons.mp h with hab | hmem
    · subst hab
      exact mark_as_sent_keeps_keys md5hex now rest _ _
        (dbKeys_dbInsert_self db (_article_id md5hex a) ⟨a.title, a.link, now⟩)
    · exact ih _ a hmem

/-- C10: with a dedup mapping supplied and a non-empty final output, the
pass records every output article's identity in the persisted mapping, for
every delivery outcome (a failed or rejected push is swallowed inside the
sender and still records all items), while the pushed message itself
contains only the top-5 selection — at most five articles, all drawn from
the output. -/
theorem mark_sent_unconditional (md5hex : String → String) (now : Int)
    (url : String) (outcome : SendOutcome) (db : SentDB)
    (articles : List Article) (hne : articles ≠ []) :
    fetch_and_process_tail md5hex now (some url) outcome (some db) articles
      = (some (send_to_wecom outcome articles),
         some (mark_as_sent md5hex now articles db), articles) ∧
    (∀ a ∈ articles,
        _article_id md5hex a ∈ dbKeys (mark_as_sent md5hex now articles db)) ∧
    (send_to_wecom outcome articles).2.length ≤ 5 ∧
    (∀ a ∈ (send_to_wecom outcome articles).2, a ∈ articles) := by
  refine ⟨?_, fun a ha => mark_as_sent_marks_all md5hex now articles db a ha, ?_, ?_⟩
  · simp [fetch_and_process_tail, hne]
  · unfold send_to_wecom
    rw [if_neg hne]
    cases outcome <;>
      simp [_select_top_articles, List.length_take, Nat.min_le_left]
  · intro a ha
    unfold send_to_wecom at ha
    rw [if_neg hne] at ha
    have hmem : a ∈ _select_top_articles articles 5 := by
      cases outcome <;> simpa using ha
    have hsorted : a ∈ List.insertionSort wecom_rel articles :=
      List.mem_of_mem_take hmem
    exact (List.perm_insertionSort wecom_rel articles).mem_iff.mp hsorted

/-- C10 witness: a one-article pass with a rejected delivery still records
the article as sent and pushes at most five articles. -/
theorem mark_sent_unconditional_witness :
    fetch_and_process_tail (fun s => s) 100 (some "hook")
        (SendOutcome.rejected 93000) (some []) [baseArticle]
      = (some (send_to_wecom (SendOutcome.rejected 93000) [baseArticle]),
         some (mark_as_sent (fun s => s) 100 [baseArticle] []), [baseArticle]) ∧
    (∀ a ∈ [baseArticle],
        _article_id (fun s => s) a
          ∈ dbKeys (mark_as_sent (fun s => s) 100 [baseArticle] [])) ∧
    (send_to_wecom (SendOutcome.rejected 93000) [baseArticle]).2.length ≤ 5 ∧
    (∀ a ∈ (send_to_wecom (SendOutcome.rejected 93000) [baseArticle]).2,
        a ∈ [baseArticle]) :=
  mark_sent_unconditional (fun s => s) 100 "hook" (SendOutcome.rejected 93000)
    [] [baseArticle] (by decide)

end RssReader
